import Mathlib

/-!
Verification of the system-call interface's authorization, sanitization,
auditing and command-whitelist logic, shallowly embedded from the
TypeScript sources (`src/lib/syscalls.ts`, `src/lib/logging.ts`, the
policy module, and the `POST /api/syscall` route handler).

Storage reads (Prisma queries) are modelled either as pure lookups over an
explicit database value or, where error behavior matters, as `Except`
valued reads.  JavaScript strings are modelled as Lean `String`
(sequences of characters); millisecond timestamps as `Int`.
-/

/-- The Prisma `Role` enum: ADMIN, POWER_USER, VIEWER. -/
inductive Role where
  | ADMIN
  | POWER_USER
  | VIEWER
deriving DecidableEq, Repr

/-- The runtime string value of a `Role` enum member (Prisma enums are strings). -/
def Role.str : Role → String
  | .ADMIN => "ADMIN"
  | .POWER_USER => "POWER_USER"
  | .VIEWER => "VIEWER"

/-- The Prisma `CallStatus` enum used by `SystemCallLog` rows. -/
inductive CallStatus where
  | SUCCESS
  | DENIED
  | ERROR
deriving DecidableEq, Repr

/-- A `Policy` row: composite key (role, systemCallId), an allow flag and an
optional per-hour execution cap (`Int?` in the schema; JavaScript treats a
value of `0` as falsy exactly like `null`). -/
structure PolicyRow where
  role : Role
  allowed : Bool
  maxExecutions : Option Int
deriving DecidableEq, Repr

/-- A `SystemCall` row as `checkPolicy` sees it (`findUnique` with
`include: policies`): name, enabled flag, the `allowedRoles` column
(a JSON-encoded array stored as text), and the attached policy rows. -/
structure SystemCallRow where
  name : String
  enabled : Bool
  allowedRoles : String
  policies : List PolicyRow
deriving DecidableEq, Repr

/-- A `SystemCallLog` row, restricted to the fields the rate-limit count
filters on. -/
structure LogRow where
  role : Role
  syscallName : String
  timestamp : Int
  status : CallStatus
deriving DecidableEq, Repr

/-- Skip JSON whitespace characters. -/
def skipWs : List Char → List Char
  | c :: rest =>
      if c = ' ' ∨ c = '\t' ∨ c = '\n' ∨ c = '\r' then skipWs rest else c :: rest
  | [] => []

/-- Parse the body of a JSON string literal (opening quote already
consumed); escape sequences are rejected, which only narrows the set of
texts that parse.  Returns the characters and the remaining input. -/
def parseStrChars : List Char → Option (List Char × List Char)
  | [] => none
  | '"' :: rest => some ([], rest)
  | '\\' :: _ => none
  | c :: rest =>
      match parseStrChars rest with
      | some (cs, r) => some (c :: cs, r)
      | none => none

/-- Parse the remainder of a JSON array of strings after the first element,
with fuel to bound recursion. -/
def parseArrayTail (fuel : Nat) (acc : List String) (cs : List Char) : Option (List String) :=
  match fuel with
  | 0 => none
  | fuel' + 1 =>
    match skipWs cs with
    | ']' :: rest => if (skipWs rest).isEmpty then some acc.reverse else none
    | ',' :: rest =>
      match skipWs rest with
      | '"' :: rest2 =>
        match parseStrChars rest2 with
        | some (str, rest3) => parseArrayTail fuel' (String.mk str :: acc) rest3
        | none => none
      | _ => none
    | _ => none

/-- Model of `JSON.parse` applied to the `allowedRoles` column, specialised
to its expected shape (an array of strings, as produced by the seed's
`JSON.stringify`); any other text fails to parse. -/
def parseJsonStringArray (s : String) : Option (List String) :=
  match skipWs s.data with
  | '[' :: rest =>
    match skipWs rest with
    | ']' :: rest2 => if (skipWs rest2).isEmpty then some [] else none
    | '"' :: rest2 =>
      match parseStrChars rest2 with
      | some (str, rest3) => parseArrayTail s.data.length [String.mk str] rest3
      | none => none
    | _ => none
  | _ => none

/-- The result shape of `checkPolicy`: `{ allowed: boolean; reason?: string }`. -/
structure Decision where
  allowed : Bool
  reason : Option String
deriving DecidableEq, Repr

/-- The two storage reads `checkPolicy` performs, each of which may raise
(`prisma.systemCall.findUnique` with included policies, and
`prisma.systemCallLog.count` over the trailing window). -/
structure StorageE where
  findSystemCall : String → Except Unit (Option SystemCallRow)
  countRecentSuccess : Role → String → Int → Except Unit Nat

/-- The body of `checkPolicy`'s `try` block: the ordered cascade of checks,
propagating any storage error. -/
def checkPolicyCore (st : StorageE) (role : Role) (syscallName : String) (now : Int) :
    Except Unit Decision :=
  match st.findSystemCall syscallName with
  | .error e => .error e
  | .ok none => .ok ⟨false, some "System call not found"⟩
  | .ok (some systemCall) =>
    if systemCall.enabled = false then
      .ok ⟨false, some "System call is disabled"⟩
    else
      let allowedRoles := (parseJsonStringArray systemCall.allowedRoles).getD []
      if allowedRoles.contains role.str = false then
        .ok ⟨false, some "Insufficient permissions for this system call"⟩
      else
        match systemCall.policies.find? (fun p => p.role == role) with
        | some policy =>
          if policy.allowed = false then
            .ok ⟨false, some "Policy denies access"⟩
          else
            match policy.maxExecutions with
            | some m =>
              if m = 0 then .ok ⟨true, none⟩
              else
                match st.countRecentSuccess role syscallName (now - 3600000) with
                | .error e => .error e
                | .ok cnt =>
                  if m ≤ (cnt : Int) then
                    .ok ⟨false, some ("Rate limit exceeded: " ++ toString m ++
                      " executions per hour")⟩
                  else .ok ⟨true, none⟩
            | none => .ok ⟨true, none⟩
        | none => .ok ⟨true, none⟩

/-- `checkPolicy` over fallible storage: the surrounding `try`/`catch`
converts any storage error into a closed denial. -/
def checkPolicyE (st : StorageE) (role : Role) (syscallName : String) (now : Int) : Decision :=
  match checkPolicyCore st role syscallName now with
  | .ok d => d
  | .error _ => ⟨false, some "Policy check failed"⟩

/-- The database state `checkPolicy` reads: the `SystemCall` table (with
policies) and the `SystemCallLog` table. -/
structure DB where
  systemCalls : List SystemCallRow
  logs : List LogRow
deriving DecidableEq, Repr

/-- `prisma.systemCall.findUnique({ where: name })` over an explicit table. -/
def DB.findSystemCall (db : DB) (n : String) : Option SystemCallRow :=
  db.systemCalls.find? (fun sc => sc.name == n)

/-- `prisma.systemCallLog.count` with the rate-limit filter: same role, same
syscall name, timestamp at or after the cutoff, status SUCCESS. -/
def DB.countRecentSuccess (db : DB) (r : Role) (n : String) (cutoff : Int) : Nat :=
  (db.logs.filter (fun l =>
    l.role == r && l.syscallName == n && decide (cutoff ≤ l.timestamp) &&
      l.status == CallStatus.SUCCESS)).length

/-- Error-free storage backed by an explicit database value. -/
def storageOfDB (db : DB) : StorageE where
  findSystemCall := fun n => .ok (db.findSystemCall n)
  countRecentSuccess := fun r n cutoff => .ok (db.countRecentSuccess r n cutoff)

/-- `checkPolicy(role, syscallName)` evaluated against an explicit database
state at a given current time (milliseconds). -/
def checkPolicy (db : DB) (role : Role) (syscallName : String) (now : Int) : Decision :=
  checkPolicyE (storageOfDB db) role syscallName now

/-- JavaScript `s.startsWith(p)`: `p` is a prefix of `s`. -/
def jsStartsWith (s p : String) : Bool :=
  p.data.isPrefixOf s.data

/-- The global replacement `userPath.replace(/\.\./g, "")`: remove `..`
occurrences left to right, non-overlapping. -/
def stripDotDot : List Char → List Char
  | '.' :: '.' :: rest => stripDotDot rest
  | c :: rest => c :: stripDotDot rest
  | [] => []

/-- The replacement `.replace(/\\/g, "/")`: turn every backslash into a
forward slash. -/
def backslashToSlash (s : String) : String :=
  String.mk (s.data.map (fun c => if c = '\\' then '/' else c))

/-- Split a character list on a separator character, JavaScript
`split`-style: `n` separators yield `n + 1` (possibly empty) pieces. -/
def splitCharAux (sep : Char) (cur : List Char) : List Char → List (List Char)
  | [] => [cur.reverse]
  | c :: rest =>
      if c = sep then cur.reverse :: splitCharAux sep [] rest
      else splitCharAux sep (c :: cur) rest

/-- Join path segments with `/` separators. -/
def joinSlash : List (List Char) → List Char
  | [] => []
  | [s] => s
  | s :: rest => s ++ '/' :: joinSlash rest

/-- Normalize the segments of an absolute POSIX path: drop empty and `.`
segments, let `..` pop the previous segment (or vanish at the root). -/
def normSegments (acc : List (List Char)) : List (List Char) → List (List Char)
  | [] => acc.reverse
  | seg :: rest =>
      if seg = [] ∨ seg = ['.'] then normSegments acc rest
      else if seg = ['.', '.'] then normSegments (acc.drop 1) rest
      else normSegments (seg :: acc) rest

/-- POSIX normalization of an absolute path string (the final step of
Node's `path.resolve`). -/
def normalizeAbs (s : String) : String :=
  String.mk ('/' :: joinSlash (normSegments [] (splitCharAux '/' [] s.data)))

/-- Node `path.resolve(p)` with one argument, given the (absolute) working
directory: if `p` is absolute normalize it, else resolve it against `cwd`. -/
def pathResolve1 (cwd p : String) : String :=
  if jsStartsWith p "/" then normalizeAbs p
  else normalizeAbs (cwd ++ "/" ++ p)

/-- Node `path.resolve(a, b)` with two arguments, given the (absolute)
working directory: the rightmost absolute component wins, preceding
components and finally `cwd` are prepended, then the result is normalized. -/
def pathResolve2 (cwd a b : String) : String :=
  if jsStartsWith b "/" then normalizeAbs b
  else if jsStartsWith a "/" then normalizeAbs (a ++ "/" ++ b)
  else normalizeAbs (cwd ++ "/" ++ a ++ "/" ++ b)

/-- `sanitizePath` from `src/lib/syscalls.ts`, parameterized by the process
working directory and the configured `SAFE_ROOT`: strip `..` occurrences,
normalize separators, resolve inside the safe root, and reject any result
that does not start with the resolved safe root. -/
def sanitizePath (cwd safeRoot userPath : String) : Except String String :=
  let cleaned := backslashToSlash (String.mk (stripDotDot userPath.data))
  let safePath := pathResolve2 cwd safeRoot cleaned
  let safeRootResolved := pathResolve1 cwd safeRoot
  if jsStartsWith safePath safeRootResolved then .ok safePath
  else .error "Invalid path: Access denied outside safe directory"

/-- `listDirectory`'s first step: `const safePath = sanitizePath(userPath)`. -/
def listDirectorySafePath (cwd safeRoot userPath : String) : Except String String :=
  sanitizePath cwd safeRoot userPath

/-- `readFile`'s first step: `const safePath = sanitizePath(userPath)`. -/
def readFileSafePath (cwd safeRoot userPath : String) : Except String String :=
  sanitizePath cwd safeRoot userPath

/-- `writeFile`'s first step: `const safePath = sanitizePath(userPath)`. -/
def writeFileSafePath (cwd safeRoot userPath : String) : Except String String :=
  sanitizePath cwd safeRoot userPath

/-- `deleteFile`'s first step: `const safePath = sanitizePath(userPath)`. -/
def deleteFileSafePath (cwd safeRoot userPath : String) : Except String String :=
  sanitizePath cwd safeRoot userPath

/-- The fixed command whitelist from `src/lib/syscalls.ts`. -/
def WHITELISTED_COMMANDS : List String := ["dir", "echo", "date", "time"]

/-- JavaScript `String.prototype.toLowerCase`, restricted to the ASCII
letters that matter for the whitelist comparison. -/
def toLowerStr (s : String) : String :=
  String.mk (s.data.map Char.toLower)

/-- Drop leading whitespace characters. -/
def dropLeadingWs : List Char → List Char
  | c :: rest => if c.isWhitespace then dropLeadingWs rest else c :: rest
  | [] => []

/-- JavaScript `String.prototype.trim`: drop whitespace from both ends. -/
def jsTrim (s : String) : String :=
  String.mk ((dropLeadingWs (dropLeadingWs s.data).reverse).reverse)

/-- The command name extracted by `runSafeCommand`:
`command.trim().split(" ")[0].toLowerCase()` — note the split is on the
space character only, not on arbitrary whitespace. -/
def extractCmdName (command : String) : String :=
  toLowerStr (String.mk ((splitCharAux ' ' [] (jsTrim command).data).headD []))

/-- The subprocess invocation `runSafeCommand` would hand to `exec` once the
whitelist check passes: the raw command plus the hard execution options. -/
structure ExecRequest where
  command : String
  timeoutMs : Nat
  maxBufferBytes : Nat
deriving DecidableEq, Repr

/-- `runSafeCommand` up to the subprocess boundary: whitelist-check the
extracted command name, and either fail (the thrown message is wrapped by
the function's own catch) or produce the exec request with a 5000 ms
timeout and a 100 KB (`1024 * 100` byte) output cap. -/
def runSafeCommand (command : String) : Except String ExecRequest :=
  let cmdName := extractCmdName command
  if WHITELISTED_COMMANDS.contains cmdName then
    .ok ⟨command, 5000, 1024 * 100⟩
  else
    .error ("Command execution failed: Command not whitelisted. Allowed commands: " ++
      "dir, echo, date, time")

/-- Modelled from the spec: "the first whitespace-delimited token of the
command string" — split on whitespace characters and take the first
non-empty token.  Used only to compare the spec's wording with the
implementation's space-only split. -/
def splitWsAux (cur : List Char) : List Char → List (List Char)
  | [] => [cur.reverse]
  | c :: rest =>
      if c.isWhitespace then cur.reverse :: splitWsAux [] rest
      else splitWsAux (c :: cur) rest

/-- First non-empty whitespace-separated token of a string. -/
def firstWhitespaceToken (s : String) : String :=
  String.mk (((splitWsAux [] s.data).filter (fun t => t ≠ [])).headD [])

/-- A JSON-ish parameter value as the logger sees it: a string, or any
non-string value (whose structure the sanitizer leaves untouched). -/
inductive JValue where
  | str (s : String)
  | other
deriving DecidableEq, Repr

/-- A parameters object: an association list of field names to values
(JavaScript object keys are unique). -/
abbrev Params : Type := List (String × JValue)

/-- The fields `sanitizeParameters` redacts. -/
def sensitiveFields : List String := ["password", "token", "secret", "key", "apiKey"]

/-- JavaScript `s.substring(0, n)`: the first `n` characters of `s`. -/
def jsTake (s : String) (n : Nat) : String :=
  String.mk (s.data.take n)

/-- The per-field action of `sanitizeParameters` in `src/lib/logging.ts`:
redact sensitive field names, truncate a string `content` field longer than
500 characters, leave everything else unchanged. -/
def sanitizeField (kv : String × JValue) : String × JValue :=
  if sensitiveFields.contains kv.1 then (kv.1, .str "[REDACTED]")
  else if kv.1 = "content" then
    match kv.2 with
    | .str s =>
        if s.length > 500 then (kv.1, .str (jsTake s 500 ++ "... [truncated]"))
        else kv
    | .other => kv
  else kv

/-- `sanitizeParameters`: apply the redaction/truncation to every field of
the parameters object. -/
def sanitizeParameters (params : Params) : Params :=
  params.map sanitizeField

/-- The log-entry argument of `logSystemCall`, restricted to the fields the
claims speak about. -/
structure LogEntry where
  userId : String
  role : Role
  syscallName : String
  parameters : Option Params
  status : CallStatus
  output : Option String
  errorMessage : Option String
deriving DecidableEq, Repr

/-- The row `logSystemCall` hands to `prisma.systemCallLog.create`. -/
structure StoredLogRow where
  userId : String
  role : Role
  syscallName : String
  parameters : Option Params
  status : CallStatus
  output : Option String
  errorMessage : Option String
deriving DecidableEq, Repr

/-- `logSystemCall` from `src/lib/logging.ts`: sanitize the parameters when
present, truncate the output to 5000 characters (an absent or empty output
is stored as null — `entry.output ? ... : null`), and persist. -/
def logSystemCall (entry : LogEntry) : StoredLogRow where
  userId := entry.userId
  role := entry.role
  syscallName := entry.syscallName
  parameters := entry.parameters.map sanitizeParameters
  status := entry.status
  output :=
    match entry.output with
    | some o => if o = "" then none else some (jsTake o 5000)
    | none => none
  errorMessage := entry.errorMessage

/-- Validation of `listDirectory`/`readFile`/`deleteFile` parameters:
`z.object` with a `path` string of length at least 1. -/
def lookupField (ps : Params) (k : String) : Option JValue :=
  (List.find? (fun kv => kv.1 == k) ps).map (fun kv => kv.2)

/-- Does the object have field `k` holding a non-empty string? -/
def hasNonEmptyStringField (ps : Params) (k : String) : Bool :=
  match lookupField ps k with
  | some (.str s) => decide (1 ≤ s.length)
  | _ => false

/-- Does the object have field `k` holding a string (possibly empty)? -/
def hasStringField (ps : Params) (k : String) : Bool :=
  match lookupField ps k with
  | some (.str _) => true
  | _ => false

/-- `syscallSchemas[syscallName]` + `schema.safeParse(parameters)` from the
route handler: names without a schema skip validation (vacuously valid);
names with a schema require the parameters object to exist and satisfy it. -/
def validateParams (syscallName : String) (params : Option Params) : Bool :=
  if syscallName = "listDirectory" ∨ syscallName = "readFile" ∨ syscallName = "deleteFile" then
    match params with
    | some ps => hasNonEmptyStringField ps "path"
    | none => false
  else if syscallName = "writeFile" then
    match params with
    | some ps => hasNonEmptyStringField ps "path" && hasStringField ps "content"
    | none => false
  else if syscallName = "runSafeCommand" then
    match params with
    | some ps => hasNonEmptyStringField ps "command"
    | none => false
  else true

/-- An incoming `POST /api/syscall` request as the handler sees it: the
authenticated session (user id and role) if any, and the parsed JSON body's
`syscallName` and `parameters` fields. -/
structure RouteRequest where
  session : Option (String × Role)
  syscallName : Option String
  parameters : Option Params
deriving Repr

/-- The outcome of `executeSyscall` for the one execution the request
performs: the host-level action either succeeded with a data payload or
failed with an error message (the executor catches everything). -/
inductive ExecOutcome where
  | success (data : String)
  | failure (err : String)
deriving DecidableEq, Repr

/-- What the route handler produces: an HTTP status code for the response,
and the audit rows it wrote (in order) before responding. -/
structure RouteResult where
  httpStatus : Nat
  auditWrites : List StoredLogRow
deriving Repr

/-- The `POST /api/syscall` handler: authenticate, require a syscall name
(JavaScript `if (!syscallName)` treats the empty string like an absent
one), look the operation up, run `checkPolicy`, validate parameters against
the operation's schema, execute, and log exactly one audit row on every
path past the lookup — the operation-not-found row with status ERROR, the
denial row with status DENIED, the validation-failure row with status
ERROR, and the execution row with status SUCCESS or ERROR. -/
def postSyscall (db : DB) (now : Int) (req : RouteRequest) (exec : ExecOutcome) : RouteResult :=
  match req.session with
  | none => ⟨401, []⟩
  | some (userId, role) =>
    match req.syscallName with
    | none => ⟨400, []⟩
    | some name =>
      if name = "" then ⟨400, []⟩
      else
        match db.findSystemCall name with
        | none =>
            ⟨404, [logSystemCall
              ⟨userId, role, name, none, CallStatus.ERROR, none,
                some "System call not found"⟩]⟩
        | some _ =>
          let policyCheck := checkPolicy db role name now
          if policyCheck.allowed then
            if validateParams name req.parameters then
              match exec with
              | .success data =>
                  ⟨200, [logSystemCall
                    ⟨userId, role, name, req.parameters, CallStatus.SUCCESS,
                      some data, none⟩]⟩
              | .failure err =>
                  ⟨500, [logSystemCall
                    ⟨userId, role, name, req.parameters, CallStatus.ERROR,
                      none, some err⟩]⟩
            else
              ⟨400, [logSystemCall
                ⟨userId, role, name, req.parameters, CallStatus.ERROR, none,
                  some "Validation error"⟩]⟩
          else
            ⟨403, [logSystemCall
              ⟨userId, role, name, req.parameters, CallStatus.DENIED, none,
                policyCheck.reason⟩]⟩

/-- Claim C2: `checkPolicy(role, operationName)` evaluates its checks in the
fixed order — operation not found, operation disabled, role not in the
operation's eligible-roles set, explicit policy row with `allowed = false`,
rate limit — returning the corresponding denial reason for the first check
that fails and allowed otherwise; in particular, whenever the eligible-roles
set excludes the role the result is the insufficient-permissions denial
regardless of the policy table's contents. -/
theorem C2_checkPolicy_fixed_order (db : DB) (r : Role) (n : String) (now : Int) :
    (db.findSystemCall n = none →
      checkPolicy db r n now = ⟨false, some "System call not found"⟩) ∧
    (∀ sc, db.findSystemCall n = some sc → sc.enabled = false →
      checkPolicy db r n now = ⟨false, some "System call is disabled"⟩) ∧
    (∀ sc, db.findSystemCall n = some sc → sc.enabled = true →
      r.str ∉ (parseJsonStringArray sc.allowedRoles).getD [] →
      checkPolicy db r n now = ⟨false, some "Insufficient permissions for this system call"⟩) ∧
    (∀ sc p, db.findSystemCall n = some sc → sc.enabled = true →
      r.str ∈ (parseJsonStringArray sc.allowedRoles).getD [] →
      sc.policies.find? (fun q => q.role == r) = some p → p.allowed = false →
      checkPolicy db r n now = ⟨false, some "Policy denies access"⟩) ∧
    (∀ sc p m, db.findSystemCall n = some sc → sc.enabled = true →
      r.str ∈ (parseJsonStringArray sc.allowedRoles).getD [] →
      sc.policies.find? (fun q => q.role == r) = some p → p.allowed = true →
      p.maxExecutions = some m → m ≠ 0 →
      m ≤ (db.countRecentSuccess r n (now - 3600000) : Int) →
      checkPolicy db r n now =
        ⟨false, some ("Rate limit exceeded: " ++ toString m ++ " executions per hour")⟩) ∧
    (∀ sc p m, db.findSystemCall n = some sc → sc.enabled = true →
      r.str ∈ (parseJsonStringArray sc.allowedRoles).getD [] →
      sc.policies.find? (fun q => q.role == r) = some p → p.allowed = true →
      p.maxExecutions = some m → m ≠ 0 →
      ((db.countRecentSuccess r n (now - 3600000) : Int) < m →
      checkPolicy db r n now = ⟨true, none⟩)) ∧
    (∀ sc p, db.findSystemCall n = some sc → sc.enabled = true →
      r.str ∈ (parseJsonStringArray sc.allowedRoles).getD [] →
      sc.policies.find? (fun q => q.role == r) = some p → p.allowed = true →
      (p.maxExecutions = none ∨ p.maxExecutions = some 0) →
      checkPolicy db r n now = ⟨true, none⟩) ∧
    (∀ sc, db.findSystemCall n = some sc → sc.enabled = true →
      r.str ∈ (parseJsonStringArray sc.allowedRoles).getD [] →
      sc.policies.find? (fun q => q.role == r) = none →
      checkPolicy db r n now = ⟨true, none⟩) := by
  refine ⟨?_, ?_, ?_, ?_, ?_, ?_, ?_, ?_⟩
  · intro h
    simp [checkPolicy, checkPolicyE, checkPolicyCore, storageOfDB, h]
  · intro sc hfind hen
    simp [checkPolicy, checkPolicyE, checkPolicyCore, storageOfDB, hfind, hen]
  · intro sc hfind hen hcont
    simp [checkPolicy, checkPolicyE, checkPolicyCore, storageOfDB, hfind, hen, hcont]
  · intro sc p hfind hen hcont hpol hal
    simp [checkPolicy, checkPolicyE, checkPolicyCore, storageOfDB, hfind, hen, hcont, hpol, hal]
  · intro sc p m hfind hen hcont hpol hal hmax hm0 hcnt
    simp [checkPolicy, checkPolicyE, checkPolicyCore, storageOfDB, hfind, hen, hcont, hpol,
      hal, hmax, hm0, hcnt]
  · intro sc p m hfind hen hcont hpol hal hmax hm0 hcnt
    have hnot : ¬ (m ≤ (db.countRecentSuccess r n (now - 3600000) : Int)) := not_le.mpr hcnt
    simp [checkPolicy, checkPolicyE, checkPolicyCore, storageOfDB, hfind, hen, hcont, hpol,
      hal, hmax, hm0, hnot]
  · intro sc p hfind hen hcont hpol hal hmax
    cases hmax with
    | inl h =>
        simp [checkPolicy, checkPolicyE, checkPolicyCore, storageOfDB, hfind, hen, hcont,
          hpol, hal, h]
    | inr h =>
        simp [checkPolicy, checkPolicyE, checkPolicyCore, storageOfDB, hfind, hen, hcont,
          hpol, hal, h]
  · intro sc hfind hen hcont hpol
    simp [checkPolicy, checkPolicyE, checkPolicyCore, storageOfDB, hfind, hen, hcont, hpol]

/-- Claim C3: with a policy row carrying a positive `maxExecutions = N`, the
request is denied with the rate-limit reason citing N as soon as the number
of audit entries for this (role, operation) with status Success and
timestamp inside the trailing 60 minutes reaches N, and is allowed (all
earlier checks passing) while that count stays below N — e.g. after the
window rolls past the oldest counted success. -/
theorem C3_checkPolicy_rate_limit (db : DB) (r : Role) (n : String) (now : Int)
    (sc : SystemCallRow) (p : PolicyRow) (N : Int)
    (hfind : db.findSystemCall n = some sc) (hen : sc.enabled = true)
    (hmem : r.str ∈ (parseJsonStringArray sc.allowedRoles).getD [])
    (hpol : sc.policies.find? (fun q => q.role == r) = some p)
    (hal : p.allowed = true) (hmax : p.maxExecutions = some N) (hpos : 0 < N) :
    (N ≤ (db.countRecentSuccess r n (now - 3600000) : Int) →
      checkPolicy db r n now =
        ⟨false, some ("Rate limit exceeded: " ++ toString N ++ " executions per hour")⟩) ∧
    ((db.countRecentSuccess r n (now - 3600000) : Int) < N →
      checkPolicy db r n now = ⟨true, none⟩) := by
  have hne : ¬ (N = 0) := by omega
  constructor
  · intro hcnt
    simp [checkPolicy, checkPolicyE, checkPolicyCore, storageOfDB, hfind, hen, hmem, hpol,
      hal, hmax, hne, hcnt]
  · intro hcnt
    have hnot : ¬ (N ≤ (db.countRecentSuccess r n (now - 3600000) : Int)) := not_le.mpr hcnt
    simp [checkPolicy, checkPolicyE, checkPolicyCore, storageOfDB, hfind, hen, hmem, hpol,
      hal, hmax, hne, hnot]

/-- Claim C4: when the operation exists, is enabled, and the role is in its
eligible-roles set, but no policy row exists for the (role, operation)
pair, `checkPolicy` allows the request and applies no rate limit — the
decision does not depend on the audit log table at all. -/
theorem C4_checkPolicy_soft_allow (db : DB) (r : Role) (n : String) (now : Int)
    (sc : SystemCallRow)
    (hfind : db.findSystemCall n = some sc) (hen : sc.enabled = true)
    (hmem : r.str ∈ (parseJsonStringArray sc.allowedRoles).getD [])
    (hpol : sc.policies.find? (fun q => q.role == r) = none) :
    checkPolicy db r n now = ⟨true, none⟩ ∧
    (∀ otherLogs : List LogRow,
      checkPolicy ⟨db.systemCalls, otherLogs⟩ r n now = ⟨true, none⟩) := by
  have hfind2 : ∀ otherLogs : List LogRow,
      DB.findSystemCall ⟨db.systemCalls, otherLogs⟩ n = some sc := fun _ => hfind
  constructor
  · simp [checkPolicy, checkPolicyE, checkPolicyCore, storageOfDB, hfind, hen, hmem, hpol]
  · intro otherLogs
    simp [checkPolicy, checkPolicyE, checkPolicyCore, storageOfDB, hfind2 otherLogs, hen,
      hmem, hpol]

/-- Claim C5: a storage error during `checkPolicy` is caught and converted
into the denial with reason "Policy check failed"; no storage behavior can
turn an error into an allowed result (the wrapper only returns allowed when
the error-free cascade did), and the check performs no writes — its storage
interface consists of the two reads only and the function returns a
bare decision. -/
theorem C5_checkPolicy_fails_closed (st : StorageE) (r : Role) (n : String) (now : Int) :
    (st.findSystemCall n = .error () →
      checkPolicyE st r n now = ⟨false, some "Policy check failed"⟩) ∧
    (checkPolicyCore st r n now = .error () →
      checkPolicyE st r n now = ⟨false, some "Policy check failed"⟩) ∧
    ((checkPolicyE st r n now).allowed = true →
      ∃ d, checkPolicyCore st r n now = .ok d ∧ d.allowed = true) := by
  refine ⟨?_, ?_, ?_⟩
  · intro h
    simp [checkPolicyE, checkPolicyCore, h]
  · intro h
    simp [checkPolicyE, h]
  · intro h
    cases hc : checkPolicyCore st r n now with
    | ok d =>
        refine ⟨d, rfl, ?_⟩
        have : checkPolicyE st r n now = d := by simp [checkPolicyE, hc]
        rw [this] at h
        exact h
    | error e =>
        have : checkPolicyE st r n now = ⟨false, some "Policy check failed"⟩ := by
          simp [checkPolicyE, hc]
        rw [this] at h
        simp at h

/-- Claim C10: when the stored `allowedRoles` text of an enabled operation
fails to parse as JSON, `checkPolicy` falls back to an empty eligible-roles
list and therefore denies every role with the insufficient-permissions
reason — a parse failure can never grant access. -/
theorem C10_parse_failure_denies (db : DB) (r : Role) (n : String) (now : Int)
    (sc : SystemCallRow)
    (hfind : db.findSystemCall n = some sc) (hen : sc.enabled = true)
    (hparse : parseJsonStringArray sc.allowedRoles = none) :
    checkPolicy db r n now = ⟨false, some "Insufficient permissions for this system call"⟩ := by
  have hmem : r.str ∉ (parseJsonStringArray sc.allowedRoles).getD [] := by
    simp [hparse]
  simp [checkPolicy, checkPolicyE, checkPolicyCore, storageOfDB, hfind, hen, hmem]

/-- A `writeFile` registry row whose eligible roles exclude VIEWER while the
policy table still carries an (allowing) VIEWER row. -/
def writeFileRow : SystemCallRow :=
  ⟨"writeFile", true, "[\"ADMIN\",\"POWER_USER\"]", [⟨Role.VIEWER, true, none⟩]⟩

/-- A `getSystemInfo` registry row open to VIEWER with a one-per-hour cap. -/
def sysInfoRow : SystemCallRow :=
  ⟨"getSystemInfo", true, "[\"ADMIN\",\"POWER_USER\",\"VIEWER\"]",
    [⟨Role.VIEWER, true, some 1⟩]⟩

/-- A `listDirectory` registry row open to all roles with no policy rows. -/
def listDirRow : SystemCallRow :=
  ⟨"listDirectory", true, "[\"ADMIN\",\"POWER_USER\",\"VIEWER\"]", []⟩

/-- A registry row whose `allowedRoles` column does not parse as JSON. -/
def brokenRolesRow : SystemCallRow :=
  ⟨"listProcesses", true, "not json", []⟩

/-- Witness for C2: a VIEWER asking for `writeFile` (eligible roles ADMIN
and POWER_USER only) is denied with the insufficient-permissions reason even
though the policy table holds an allowing VIEWER row. -/
theorem C2_checkPolicy_fixed_order_witness :
    checkPolicy ⟨[writeFileRow], []⟩ Role.VIEWER "writeFile" 0 =
      ⟨false, some "Insufficient permissions for this system call"⟩ :=
  (C2_checkPolicy_fixed_order ⟨[writeFileRow], []⟩ Role.VIEWER "writeFile" 0).2.2.1
    writeFileRow (by decide) (by decide) (by decide)

/-- Witness for C3: with cap 1, a VIEWER whose hour already holds one
successful `getSystemInfo` is denied citing the cap, while the same state
with that success aged out of the window is allowed. -/
theorem C3_checkPolicy_rate_limit_witness :
    checkPolicy ⟨[sysInfoRow], [⟨Role.VIEWER, "getSystemInfo", 100, CallStatus.SUCCESS⟩]⟩
        Role.VIEWER "getSystemInfo" 3600000 =
      ⟨false, some ("Rate limit exceeded: " ++ toString (1 : Int) ++ " executions per hour")⟩ ∧
    checkPolicy ⟨[sysInfoRow], [⟨Role.VIEWER, "getSystemInfo", -1, CallStatus.SUCCESS⟩]⟩
        Role.VIEWER "getSystemInfo" 3600000 = ⟨true, none⟩ :=
  ⟨(C3_checkPolicy_rate_limit
      ⟨[sysInfoRow], [⟨Role.VIEWER, "getSystemInfo", 100, CallStatus.SUCCESS⟩]⟩
      Role.VIEWER "getSystemInfo" 3600000 sysInfoRow ⟨Role.VIEWER, true, some 1⟩ 1
      (by decide) (by decide) (by decide) (by decide) (by decide) (by decide)
      (by decide)).1 (by decide),
   (C3_checkPolicy_rate_limit
      ⟨[sysInfoRow], [⟨Role.VIEWER, "getSystemInfo", -1, CallStatus.SUCCESS⟩]⟩
      Role.VIEWER "getSystemInfo" 3600000 sysInfoRow ⟨Role.VIEWER, true, some 1⟩ 1
      (by decide) (by decide) (by decide) (by decide) (by decide) (by decide)
      (by decide)).2 (by decide)⟩

/-- Witness for C4: a VIEWER calling `listDirectory` with no policy row is
allowed, also in the presence of arbitrarily many recent successes. -/
theorem C4_checkPolicy_soft_allow_witness :
    checkPolicy ⟨[listDirRow], []⟩ Role.VIEWER "listDirectory" 0 = ⟨true, none⟩ ∧
    checkPolicy ⟨[listDirRow], [⟨Role.VIEWER, "listDirectory", 0, CallStatus.SUCCESS⟩]⟩
      Role.VIEWER "listDirectory" 0 = ⟨true, none⟩ :=
  ⟨(C4_checkPolicy_soft_allow ⟨[listDirRow], []⟩ Role.VIEWER "listDirectory" 0 listDirRow
      (by decide) (by decide) (by decide) (by decide)).1,
   (C4_checkPolicy_soft_allow ⟨[listDirRow], []⟩ Role.VIEWER "listDirectory" 0 listDirRow
      (by decide) (by decide) (by decide) (by decide)).2
      [⟨Role.VIEWER, "listDirectory", 0, CallStatus.SUCCESS⟩]⟩

/-- Witness for C5: storage whose `findUnique` raises makes `checkPolicy`
return the closed "Policy check failed" denial. -/
theorem C5_checkPolicy_fails_closed_witness :
    checkPolicyE ⟨fun _ => .error (), fun _ _ _ => .error ()⟩ Role.ADMIN "readFile" 0 =
      ⟨false, some "Policy check failed"⟩ :=
  (C5_checkPolicy_fails_closed ⟨fun _ => .error (), fun _ _ _ => .error ()⟩
    Role.ADMIN "readFile" 0).1 rfl

/-- Witness for C10: with `allowedRoles` text "not json", even ADMIN is
denied with the insufficient-permissions reason. -/
theorem C10_parse_failure_denies_witness :
    checkPolicy ⟨[brokenRolesRow], []⟩ Role.ADMIN "listProcesses" 0 =
      ⟨false, some "Insufficient permissions for this system call"⟩ :=
  C10_parse_failure_denies ⟨[brokenRolesRow], []⟩ Role.ADMIN "listProcesses" 0
    brokenRolesRow (by decide) (by decide) (by decide)

/-- Normalized absolute paths always begin with a slash. -/
theorem normalizeAbs_startsWith_slash (s : String) :
    jsStartsWith (normalizeAbs s) "/" = true := by
  have hdata : ("/" : String).data = ['/'] := rfl
  simp [jsStartsWith, normalizeAbs, hdata, List.isPrefixOf]

/-- `path.resolve` with two arguments yields an absolute path. -/
theorem pathResolve2_startsWith_slash (cwd a b : String) :
    jsStartsWith (pathResolve2 cwd a b) "/" = true := by
  unfold pathResolve2
  split_ifs <;> exact normalizeAbs_startsWith_slash _

/-- Claim C1: for every user-supplied path, `sanitizePath` either raises or
returns an absolute path that starts with the resolved sandbox root, and all
four file operations (`listDirectory`, `readFile`, `writeFile`,
`deleteFile`) obtain their on-disk path exclusively through `sanitizePath`,
so no file operation ever resolves to a path outside the configured sandbox
root in the claim's sense `resolve(sanitize(p)).startsWith(resolve(sandboxRoot))`,
however many traversal segments or encoded separators the input holds. -/
theorem C1_sanitizePath_sandbox (cwd safeRoot p out : String)
    (_hcwd : jsStartsWith cwd "/" = true)
    (hok : sanitizePath cwd safeRoot p = .ok out) :
    jsStartsWith out "/" = true ∧
    jsStartsWith out (pathResolve1 cwd safeRoot) = true ∧
    listDirectorySafePath cwd safeRoot p = .ok out ∧
    readFileSafePath cwd safeRoot p = .ok out ∧
    writeFileSafePath cwd safeRoot p = .ok out ∧
    deleteFileSafePath cwd safeRoot p = .ok out := by
  have hok0 := hok
  unfold sanitizePath at hok
  by_cases hguard : jsStartsWith
      (pathResolve2 cwd safeRoot (backslashToSlash (String.mk (stripDotDot p.data))))
      (pathResolve1 cwd safeRoot) = true
  · rw [if_pos hguard] at hok
    have hout : pathResolve2 cwd safeRoot
        (backslashToSlash (String.mk (stripDotDot p.data))) = out := by
      exact Except.ok.inj hok
    refine ⟨?_, ?_, hok0, hok0, hok0, hok0⟩
    · rw [← hout]
      exact pathResolve2_startsWith_slash _ _ _
    · rw [← hout]
      exact hguard
  · rw [if_neg hguard] at hok
    exact absurd hok (by simp)

/-- Witness for C1: inside a process rooted at `/srv` with the default
`./safe-root` sandbox, the benign input `docs/a.txt` sanitizes to an
absolute path below the resolved sandbox root, and every file operation
resolves it identically. -/
theorem C1_sanitizePath_sandbox_witness :
    jsStartsWith "/srv/safe-root/docs/a.txt" "/" = true ∧
    jsStartsWith "/srv/safe-root/docs/a.txt" (pathResolve1 "/srv" "./safe-root") = true ∧
    listDirectorySafePath "/srv" "./safe-root" "docs/a.txt" = .ok "/srv/safe-root/docs/a.txt" ∧
    readFileSafePath "/srv" "./safe-root" "docs/a.txt" = .ok "/srv/safe-root/docs/a.txt" ∧
    writeFileSafePath "/srv" "./safe-root" "docs/a.txt" = .ok "/srv/safe-root/docs/a.txt" ∧
    deleteFileSafePath "/srv" "./safe-root" "docs/a.txt" = .ok "/srv/safe-root/docs/a.txt" :=
  C1_sanitizePath_sandbox "/srv" "./safe-root" "docs/a.txt" "/srv/safe-root/docs/a.txt"
    (by decide) (by rfl)

/-- Counterexample to claim C6 as stated: the command "echo\tfoo" has first
whitespace-delimited token "echo", which is whitelisted, yet
`runSafeCommand` rejects it — the implementation splits the trimmed command
on the space character only, so the tab-joined token "echo\tfoo" is what
gets compared against the whitelist. -/
theorem C6_whitelist_counterexample :
    firstWhitespaceToken "echo\tfoo" = "echo" ∧
    "echo" ∈ WHITELISTED_COMMANDS ∧
    runSafeCommand "echo\tfoo" =
      .error ("Command execution failed: Command not whitelisted. Allowed commands: " ++
        "dir, echo, date, time") :=
  ⟨by decide, by decide, by rfl⟩

/-- Claim C6 (amended): for every command string whose first space-delimited
token (after trimming, lowercased) is not one of dir/echo/date/time,
`runSafeCommand` fails with the whitelist-violation error and produces no
subprocess invocation; when that token is whitelisted the command is handed
to the subprocess executor with a hard 5000 ms timeout and a hard
`1024 * 100` byte output cap, whose captured stdout and stderr are returned
separately. -/
theorem C6_runSafeCommand_whitelist (command : String) :
    (extractCmdName command ∉ WHITELISTED_COMMANDS →
      runSafeCommand command =
        .error ("Command execution failed: Command not whitelisted. Allowed commands: " ++
          "dir, echo, date, time")) ∧
    (extractCmdName command ∈ WHITELISTED_COMMANDS →
      runSafeCommand command = .ok ⟨command, 5000, 1024 * 100⟩) := by
  constructor
  · intro h
    simp [runSafeCommand, h]
  · intro h
    simp [runSafeCommand, h]

/-- Witness for the amended C6: "whoami" is rejected with the whitelist
error; "echo hello" is executed with the 5-second timeout and 100 KB cap. -/
theorem C6_runSafeCommand_whitelist_witness :
    runSafeCommand "whoami" =
      .error ("Command execution failed: Command not whitelisted. Allowed commands: " ++
        "dir, echo, date, time") ∧
    runSafeCommand "echo hello" = .ok ⟨"echo hello", 5000, 1024 * 100⟩ :=
  ⟨(C6_runSafeCommand_whitelist "whoami").1 (by decide),
   (C6_runSafeCommand_whitelist "echo hello").2 (by decide)⟩

/-- Claim C7: every request that has an authenticated session and a
(non-empty) operation name passes through the audit-logging step exactly
once before the response is produced, whatever the outcome — operation not
found, authorization denied, parameter validation failure, execution error,
or success. -/
theorem C7_route_audits_once (db : DB) (now : Int) (req : RouteRequest)
    (exec : ExecOutcome) (uid : String) (role : Role) (name : String)
    (hs : req.session = some (uid, role)) (hn : req.syscallName = some name)
    (hne : name ≠ "") :
    (postSyscall db now req exec).auditWrites.length = 1 := by
  simp only [postSyscall, hs, hn]
  rw [if_neg hne]
  cases hfind : db.findSystemCall name with
  | none => rfl
  | some sc =>
    simp only []
    cases hal : (checkPolicy db role name now).allowed with
    | false => simp [hal]
    | true =>
      cases hv : validateParams name req.parameters with
      | false => simp [hal, hv]
      | true => cases exec <;> simp [hal, hv]

/-- Witness for C7: a VIEWER's successful `listDirectory` request writes
exactly one audit row. -/
theorem C7_route_audits_once_witness :
    (postSyscall ⟨[listDirRow], []⟩ 0
      ⟨some ("u1", Role.VIEWER), some "listDirectory", some [("path", JValue.str "/")]⟩
      (.success "listing")).auditWrites.length = 1 :=
  C7_route_audits_once ⟨[listDirRow], []⟩ 0
    ⟨some ("u1", Role.VIEWER), some "listDirectory", some [("path", JValue.str "/")]⟩
    (.success "listing") "u1" Role.VIEWER "listDirectory" rfl rfl (by decide)

/-- Claim C8: before an audit entry is persisted, every parameter field
literally named password/token/secret/key/apiKey has its value replaced by
the fixed "[REDACTED]" marker, a string `content` field longer than 500
characters is cut to its first 500 characters with the "... [truncated]"
marker appended (shorter content is kept verbatim), the sanitization is
applied to every field of the parameters object, and the output text is
independently truncated to at most 5000 characters before storage. -/
theorem C8_audit_redaction (k : String) (v : JValue) (s o : String) (entry : LogEntry) :
    (k ∈ sensitiveFields → sanitizeField (k, v) = (k, .str "[REDACTED]")) ∧
    (s.length > 500 →
      sanitizeField ("content", .str s) =
        ("content", .str (jsTake s 500 ++ "... [truncated]"))) ∧
    (s.length ≤ 500 → sanitizeField ("content", .str s) = ("content", .str s)) ∧
    (∀ params : Params, sanitizeParameters params = params.map sanitizeField) ∧
    (entry.output = some o → o ≠ "" →
      (logSystemCall entry).output = some (jsTake o 5000) ∧
      (jsTake o 5000).length ≤ 5000) := by
  have hns : "content" ∉ sensitiveFields := by decide
  refine ⟨?_, ?_, ?_, fun _ => rfl, ?_⟩
  · intro h
    simp [sanitizeField, h]
  · intro h
    simp [sanitizeField, hns, h]
  · intro h
    have hnot : ¬ (s.length > 500) := not_lt.mpr h
    simp [sanitizeField, hns, hnot]
  · intro hout hne
    constructor
    · simp [logSystemCall, hout, hne]
    · show (String.mk (o.data.take 5000)).length ≤ 5000
      have : (String.mk (o.data.take 5000)).length = (o.data.take 5000).length := rfl
      rw [this]
      simp [List.length_take]

/-- Witness for C8: a `password` field is redacted, a 501-character
`content` field is truncated with the marker, and a non-empty output is
stored as its 5000-character prefix. -/
theorem C8_audit_redaction_witness :
    sanitizeField ("password", JValue.other) = ("password", JValue.str "[REDACTED]") ∧
    sanitizeField ("content", JValue.str (String.mk (List.replicate 501 'a'))) =
      ("content", JValue.str (jsTake (String.mk (List.replicate 501 'a')) 500 ++
        "... [truncated]")) ∧
    (logSystemCall ⟨"u1", Role.ADMIN, "getSystemInfo", none, CallStatus.SUCCESS,
        some "out", none⟩).output = some (jsTake "out" 5000) ∧
    (jsTake "out" 5000).length ≤ 5000 :=
  ⟨(C8_audit_redaction "password" JValue.other "" ""
      ⟨"", Role.ADMIN, "", none, CallStatus.SUCCESS, none, none⟩).1 (by decide),
   (C8_audit_redaction "content" JValue.other (String.mk (List.replicate 501 'a')) ""
      ⟨"", Role.ADMIN, "", none, CallStatus.SUCCESS, none, none⟩).2.1
      (by show (List.replicate 501 'a').length > 500
          rw [List.length_replicate]
          omega),
   (C8_audit_redaction "x" JValue.other "" "out"
      ⟨"u1", Role.ADMIN, "getSystemInfo", none, CallStatus.SUCCESS, some "out", none⟩).2.2.2.2
      rfl (by decide)⟩

/-- Counterexample to claim C9 as stated: a request naming a missing
operation is an authorization denial in the claim's taxonomy, yet the route
logs it with status ERROR, not DENIED. -/
theorem C9_notFound_logged_error :
    ((postSyscall ⟨[], []⟩ 0 ⟨some ("u1", Role.VIEWER), some "nope", none⟩
        (.failure "unused")).auditWrites.map (fun w => w.status) = [CallStatus.ERROR]) ∧
    CallStatus.ERROR ≠ CallStatus.DENIED :=
  ⟨by rfl, by decide⟩

/-- Claim C9 (amended): every authorization denial of an operation that
exists in the registry — disabled, role-ineligible, policy-denied,
rate-limited, or a failed policy check — results in exactly one audit entry
with status Denied; a request naming a missing operation is logged with
status Error instead. -/
theorem C9_denials_logged_denied (db : DB) (now : Int) (req : RouteRequest)
    (exec : ExecOutcome) (uid : String) (role : Role) (name : String) (sc : SystemCallRow)
    (hs : req.session = some (uid, role)) (hn : req.syscallName = some name)
    (hne : name ≠ "") (hfind : db.findSystemCall name = some sc)
    (hdeny : (checkPolicy db role name now).allowed = false) :
    (postSyscall db now req exec).auditWrites.map (fun w => w.status) =
      [CallStatus.DENIED] := by
  simp only [postSyscall, hs, hn]
  rw [if_neg hne, hfind]
  simp [hdeny, logSystemCall]

/-- Witness for the amended C9: an ADMIN hitting a disabled `readFile`
operation is denied and the single audit row carries status DENIED. -/
theorem C9_denials_logged_denied_witness :
    (postSyscall ⟨[⟨"readFile", false, "[\"ADMIN\"]", []⟩], []⟩ 0
      ⟨some ("u1", Role.ADMIN), some "readFile", none⟩
      (.failure "unused")).auditWrites.map (fun w => w.status) = [CallStatus.DENIED] :=
  C9_denials_logged_denied ⟨[⟨"readFile", false, "[\"ADMIN\"]", []⟩], []⟩ 0
    ⟨some ("u1", Role.ADMIN), some "readFile", none⟩ (.failure "unused")
    "u1" Role.ADMIN "readFile" ⟨"readFile", false, "[\"ADMIN\"]", []⟩
    rfl rfl (by decide) (by decide) (by decide)
